import Mathlib

/-!
Verification of the gradeflow engine's rule evaluation/composition core.

This file shallowly embeds the parts of `gradeflow_engine` that the checked
properties concern: the data model (`GradeDetail`, `Submission`,
`StudentResult`), the composite / conditional / assumption-set rule
processors, the rule registry, the grading orchestrator loop, and the
validation / result-extraction logic of the sandbox.

Python floats are modelled as `ℚ` (the scores in play are exact decimals and
no claim concerns float rounding).  Python dicts keyed by strings are
modelled as association lists in insertion order, matching CPython's
order-preserving dict semantics.  Sub-rule evaluation through the registry
(`processor(rule, submission)`) is abstracted as an oracle recorded next to
each sub-rule: the claims under check are about how the engine *combines*
sub-rule outcomes, not about the leaf evaluators (which the spec itself
declares out of scope).
-/

/-- Mirrors `gradeflow_engine.models.GradeDetail`: the scored outcome for one
question produced by one rule application. -/
structure GradeDetail where
  question_id : String
  student_answer : Option String
  correct_answer : Option String
  points_awarded : ℚ
  max_points : ℚ
  is_correct : Bool
  rule_applied : Option String
  feedback : Option String
deriving DecidableEq

/-- Mirrors `gradeflow_engine.models.Submission` (metadata is an opaque bag the
engine only forwards; we model it as string pairs). -/
structure Submission where
  student_id : String
  answers : List (String × String)
  metadata : List (String × String)
deriving DecidableEq

/-- Python `submission.answers.get(q, "")` from the source. -/
def Submission.getAnswer (s : Submission) (q : String) : String :=
  (s.answers.lookup q).getD ""

/-- Mirrors `gradeflow_engine.models.StudentResult`. -/
structure StudentResult where
  student_id : String
  total_points : ℚ
  max_points : ℚ
  percentage : ℚ
  grade_details : List GradeDetail
  metadata : List (String × String)
deriving DecidableEq

/-- A processor's possible return value: `None`, a single `GradeDetail`, or a
list of them (`GradeDetail | list[GradeDetail] | None` in the source). -/
inductive EvalResult where
  | nores
  | one (d : GradeDetail)
  | many (l : List GradeDetail)
deriving DecidableEq

/-! ## Composite rules (`rules/composite`) -/

/-- The `mode` field of `CompositeRule` is `Literal["AND", "OR", "WEIGHTED"]`
(`rules/composite/model.py`). -/
inductive CompositeMode where
  | AND
  | OR
  | WEIGHTED
deriving DecidableEq

/-- The set of mode strings `CompositeRule.mode` accepts, as enforced by the
Pydantic `Literal["AND", "OR", "WEIGHTED"]` annotation in
`rules/composite/model.py`. -/
def compositeModeAccepts (s : String) : Bool :=
  s = "AND" || s = "OR" || s = "WEIGHTED"

/-- Mirrors `CompositeRule` (`rules/composite/model.py`).  The sub-rules
themselves are abstracted: `process_composite` receives the outcome of
dispatching each sub-rule (with `question_id` overridden) as a list of
`EvalResult`s in sub-rule order. -/
structure CompositeRule where
  question_id : String
  mode : CompositeMode
  weights : Option (List ℚ)
  min_passing : Option Nat
  correctness_threshold : ℚ
deriving DecidableEq

/-- Mirrors `_apply_single_rule_with_question_override` normalisation: a list result
is collapsed to its first element (`result[0] if result else None`). -/
def firstResult : EvalResult → Option GradeDetail
  | .nores => none
  | .one d => some d
  | .many l => l.head?

/-- Mirrors `process_composite` (`rules/composite/processor.py`).
`subEvals` holds, per sub-rule, the result of dispatching that sub-rule with
the composite's `question_id` forced onto it.  The WEIGHTED branch can raise
`ValueError`, hence the `Except`. -/
def process_composite (rule : CompositeRule) (submission : Submission)
    (subEvals : List EvalResult) : Except String (List GradeDetail) :=
  let sub_results := subEvals.filterMap firstResult
  if sub_results = [] then .ok []
  else
    match rule.mode with
    | .AND =>
      let all_passed := sub_results.all (·.is_correct)
      let total_points : ℚ :=
        if all_passed then (sub_results.map (·.points_awarded)).sum else 0
      let total_max : ℚ := (sub_results.map (·.max_points)).sum
      let failed_count := (sub_results.filter (fun d => !d.is_correct)).length
      let feedback :=
        if all_passed then
          "All " ++ toString sub_results.length ++ " criteria passed"
        else
          "AND mode: " ++ toString failed_count ++ "/" ++
            toString sub_results.length ++ " criteria failed"
      .ok [{ question_id := rule.question_id
             student_answer := some (submission.getAnswer rule.question_id)
             correct_answer := none
             points_awarded := total_points
             max_points := total_max
             is_correct := all_passed
             rule_applied := some "COMPOSITE"
             feedback := some feedback }]
    | .OR =>
      let min_passing := match rule.min_passing with
        | some n => if n ≠ 0 then n else 1
        | none => 1
      let passed_count := (sub_results.filter (·.is_correct)).length
      let total_max : ℚ :=
        ((sub_results.map (·.max_points)).foldl max
          ((sub_results.map (·.max_points)).headD 0))
      let ok := decide (passed_count ≥ min_passing)
      let best_points : ℚ :=
        if ok then
          ((sub_results.map (·.points_awarded)).foldl max
            ((sub_results.map (·.points_awarded)).headD 0))
        else 0
      let feedback :=
        if ok then
          "OR mode: " ++ toString passed_count ++ "/" ++
            toString sub_results.length ++ " criteria passed"
        else
          "OR mode: only " ++ toString passed_count ++ "/" ++
            toString sub_results.length ++ " passed, need " ++
            toString min_passing
      .ok [{ question_id := rule.question_id
             student_answer := some (submission.getAnswer rule.question_id)
             correct_answer := none
             points_awarded := best_points
             max_points := total_max
             is_correct := ok
             rule_applied := some "COMPOSITE"
             feedback := some feedback }]
    | .WEIGHTED =>
      match rule.weights with
      | none => .error "WEIGHTED mode requires weights matching number of rules"
      | some ws =>
        if ws = [] ∨ ws.length ≠ sub_results.length then
          .error "WEIGHTED mode requires weights matching number of rules"
        else
          let weighted_points : ℚ :=
            ((sub_results.zip ws).map (fun p => p.1.points_awarded * p.2)).sum
          let weighted_max : ℚ :=
            ((sub_results.zip ws).map (fun p => p.1.max_points * p.2)).sum
          let is_correct :=
            decide (weighted_points ≥ weighted_max * rule.correctness_threshold)
          .ok [{ question_id := rule.question_id
                 student_answer := some (submission.getAnswer rule.question_id)
                 correct_answer := none
                 points_awarded := weighted_points
                 max_points := weighted_max
                 is_correct := is_correct
                 rule_applied := some "COMPOSITE"
                 feedback := some "Weighted score" }]

/-! ## Conditional rules (`rules/conditional`) -/

/-- The `if_aggregation` field of `ConditionalRule` is `Literal["AND", "OR"]`. -/
inductive CondAgg where
  | AND
  | OR
deriving DecidableEq

/-- Mirrors `ConditionalRule` (`rules/conditional/model.py`), with the
dispatch of each guard (`if_rules`) and consequence (`then_rules`) rule
abstracted to its recorded outcome, in dict insertion order. -/
structure ConditionalRule where
  if_results : List EvalResult
  if_aggregation : CondAgg
  then_results : List EvalResult
deriving DecidableEq

/-- The guard-to-boolean reduction in `process_conditional`: a `None` result
counts as false, a list counts as true iff any element `is_correct`, a single
result contributes its `is_correct`. -/
def guardBool : EvalResult → Bool
  | .nores => false
  | .one d => d.is_correct
  | .many l => l.any (·.is_correct)

/-- Flattening of consequence-rule outcomes in `process_conditional`'s second
loop: `None` skipped, lists extended, single results appended. -/
def flattenResults (rs : List EvalResult) : List GradeDetail :=
  rs.foldl
    (fun acc r =>
      match r with
      | .nores => acc
      | .one d => acc ++ [d]
      | .many l => acc ++ l) []

/-- Mirrors `process_conditional` (`rules/conditional/processor.py`). -/
def process_conditional (rule : ConditionalRule) : Option (List GradeDetail) :=
  let condition_results := rule.if_results.map guardBool
  let condition_met :=
    match rule.if_aggregation with
    | .AND => condition_results.all id && !condition_results.isEmpty
    | .OR => condition_results.any id
  if condition_met then
    let results := flattenResults rule.then_results
    if results = [] then none else some results
  else
    none

/-! ## Assumption-set rules (`rules/assumption_set`) -/

/-- A sub-rule inside an assumption: its target question, its `max_points`
(read by `_get_max_points` when the processor yields nothing), and the
abstracted outcome of dispatching it. -/
structure AsmSubrule where
  question_id : String
  max_points : ℚ
  outcome : EvalResult
deriving DecidableEq

/-- Mirrors `Assumption` (`rules/assumption_set/model.py`). -/
structure Assumption where
  name : String
  rules : List AsmSubrule
deriving DecidableEq

/-- The `mode` field of `AssumptionSetRule`: `Literal["best", "worst", "average"]`. -/
inductive AsmMode where
  | best
  | worst
  | average
deriving DecidableEq

/-- Mirrors `AssumptionSetRule` (`rules/assumption_set/model.py`).  The model
validator `validate_unique_assumption_names` guarantees assumption names are
unique, so the insertion-ordered dict `assumption_map` built by the processor
is faithfully a list in assumption order. -/
structure AssumptionSetRule where
  assumptions : List Assumption
  mode : AsmMode
deriving DecidableEq

/-- Mirrors the `AssumptionResult` dataclass of
`rules/assumption_set/processor.py`. -/
structure AssumptionResult where
  name : String
  total : ℚ
  details : List GradeDetail
deriving DecidableEq

/-- Mirrors `_update_feedback`: append `Graded using assumption: <name>` to
the detail's feedback (empty or missing feedback is replaced). -/
def update_feedback (d : GradeDetail) (name : String) : GradeDetail :=
  let note := "Graded using assumption: " ++ name
  { d with
    feedback := some (match d.feedback with
      | some f => if f ≠ "" then f ++ "\n" ++ note else note
      | none => note) }

/-- Mirrors `_create_failed_detail`. -/
def create_failed_detail (question_id student_answer : String) (max_points : ℚ)
    (assumption_name rule_type : String) : GradeDetail :=
  { question_id := question_id
    student_answer := some student_answer.trim
    correct_answer := none
    points_awarded := 0
    max_points := max_points
    is_correct := false
    rule_applied := some rule_type
    feedback := some ("Graded using assumption: " ++ assumption_name) }

/-- Mirrors `_to_detail`: a `None` outcome becomes a zero-point failed detail
with the sub-rule's `max_points`; otherwise take the (first) detail with the
assumption name appended to its feedback.  `proc_result[0]` on an empty list
raises `IndexError` in Python, modelled as `Except.error` (unreachable with
the repository's processors, which never return an empty list). -/
def to_detail (res : EvalResult) (submission : Submission) (question_id : String)
    (max_points : ℚ) (assumption_name rule_type : String) :
    Except String GradeDetail :=
  match res with
  | .nores =>
      .ok (create_failed_detail question_id (submission.getAnswer question_id)
        max_points assumption_name rule_type)
  | .one d => .ok (update_feedback d assumption_name)
  | .many [] => .error "list index out of range"
  | .many (d :: _) => .ok (update_feedback d assumption_name)

/-- The per-assumption loop of `process_assumption_set`: normalise every
sub-rule outcome to a detail, in order. -/
def evalSubrules (submission : Submission) (assumption_name : String) :
    List AsmSubrule → Except String (List GradeDetail)
  | [] => .ok []
  | r :: rs =>
    match to_detail r.outcome submission r.question_id r.max_points
        assumption_name "ASSUMPTION_SET" with
    | .error e => .error e
    | .ok d =>
      match evalSubrules submission assumption_name rs with
      | .error e => .error e
      | .ok ds => .ok (d :: ds)

/-- One assumption's `AssumptionResult` (`total_score` accumulates the same
sum the Python loop does). -/
def evalAssumption (submission : Submission) (a : Assumption) :
    Except String AssumptionResult :=
  match evalSubrules submission a.name a.rules with
  | .error e => .error e
  | .ok ds => .ok ⟨a.name, (ds.map (·.points_awarded)).sum, ds⟩

/-- All assumptions' results, in assumption order (the `assumption_map`). -/
def evalAssumptions (submission : Submission) :
    List Assumption → Except String (List AssumptionResult)
  | [] => .ok []
  | a :: as_ =>
    match evalAssumption submission a with
    | .error e => .error e
    | .ok r =>
      match evalAssumptions submission as_ with
      | .error e => .error e
      | .ok rs => .ok (r :: rs)

/-- Python's `max(values, key=lambda r: r.total)`: first element of maximal
total (later elements replace only on strictly greater total). -/
def pickBest (r : AssumptionResult) (rs : List AssumptionResult) : AssumptionResult :=
  rs.foldl (fun acc x => if x.total > acc.total then x else acc) r

/-- Python's `min(values, key=lambda r: r.total)`. -/
def pickWorst (r : AssumptionResult) (rs : List AssumptionResult) : AssumptionResult :=
  rs.foldl (fun acc x => if x.total < acc.total then x else acc) r

/-- Python `max(xs)` over a nonempty list of rationals (used for the
per-question `max_points` in average mode); 0 on the unreachable empty list. -/
def qlistMax : List ℚ → ℚ
  | [] => 0
  | x :: xs => xs.foldl max x

/-- The `1e-9` tolerance in `process_assumption_set`'s average mode. -/
def epsAvg : ℚ := 1 / 1000000000

/-- The `seen_lines` accumulation in average mode: add each line of a
detail's feedback, skipping lines already present (empty feedback skipped). -/
def collectLines (seen : List String) (fb : Option String) : List String :=
  match fb with
  | none => seen
  | some f =>
    if f = "" then seen
    else (f.splitOn "\n").foldl (fun s l => if l ∈ s then s else s ++ [l]) seen

/-- One averaged per-question detail of average mode (`rules/assumption_set/
processor.py`, `averaged_details` loop body). -/
def averagedDetail (rule_type qid : String) (dlist : List GradeDetail) : GradeDetail :=
  let avg := (dlist.map (·.points_awarded)).sum / (dlist.length : ℚ)
  let mx := qlistMax (dlist.map (·.max_points))
  let seen := dlist.foldl (fun s d => collectLines s d.feedback) []
  { question_id := qid
    student_answer := match dlist.head? with
      | some d0 => d0.student_answer
      | none => none
    correct_answer := match dlist.head? with
      | some d0 => d0.correct_answer
      | none => none
    points_awarded := avg
    max_points := mx
    is_correct := decide (avg ≥ mx - epsAvg)
    rule_applied := some rule_type
    feedback := some (if seen = [] then "Averaged across assumptions"
      else "Averaged across assumptions:\n" ++ String.intercalate "\n" seen) }

/-- The `per_q.setdefault(qid, []).append(d)` step: extend the group of the
detail's question id, or open a new group at the end. -/
def insertGroup (acc : List (String × List GradeDetail)) (d : GradeDetail) :
    List (String × List GradeDetail) :=
  match acc with
  | [] => [(d.question_id, [d])]
  | (q, l) :: rest =>
    if q = d.question_id then (q, l ++ [d]) :: rest
    else (q, l) :: insertGroup rest d

/-- The `per_q` dict of average mode: all details grouped by question id,
keys in first-occurrence order, values in iteration order. -/
def groupByQid (ds : List GradeDetail) : List (String × List GradeDetail) :=
  ds.foldl insertGroup []

/-- Concatenation of all assumptions' detail lists, in assumption order (the
iteration over `assumption_map.values()` in average mode). -/
def allDetails : List AssumptionResult → List GradeDetail
  | [] => []
  | r :: rs => r.details ++ allDetails rs

/-- Mirrors `process_assumption_set` (`rules/assumption_set/processor.py`):
evaluate every assumption, then select/aggregate by mode.  The `.error` path
models the Python exceptions that the orchestrator would catch. -/
def process_assumption_set (rule : AssumptionSetRule) (submission : Submission) :
    Except String (List GradeDetail) :=
  match evalAssumptions submission rule.assumptions with
  | .error e => .error e
  | .ok [] => .ok []
  | .ok (r :: rs) =>
    match rule.mode with
    | .best => .ok (pickBest r rs).details
    | .worst => .ok (pickWorst r rs).details
    | .average =>
      .ok ((groupByQid (allDetails (r :: rs))).map
        (fun g => averagedDetail "ASSUMPTION_SET" g.1 g.2))

/-! ## Rule registry (`rules/registry.py`) -/

/-- An abstracted Python callable as `RuleRegistry.register` sees it: the
parameter count `inspect.signature` reports, plus an identity so that
distinct processors are distinguishable. -/
structure PyProcessor where
  arity : Nat
  pid : Nat
deriving DecidableEq

/-- Python dict assignment `d[k] = v`: overwrite in place when the key
exists (keeping its insertion position), else append. -/
def dictInsert (d : List (String × PyProcessor)) (k : String) (v : PyProcessor) :
    List (String × PyProcessor) :=
  match d with
  | [] => [(k, v)]
  | (k', v') :: rest =>
    if k' = k then (k', v) :: rest else (k', v') :: dictInsert rest k v

/-- Mirrors `RuleRegistry.register` (`rules/registry.py`): raise `ValueError`
when the processor does not take exactly 2 parameters, then assign
`cls._processors[rule_type] = processor` (the model table is updated in the
same way and is not modelled separately). -/
def register (procs : List (String × PyProcessor)) (rule_type : String)
    (processor : PyProcessor) : Except String (List (String × PyProcessor)) :=
  if processor.arity ≠ 2 then
    .error ("Processor for '" ++ rule_type ++
      "' must accept exactly 2 parameters (rule, submission), got " ++
      toString processor.arity)
  else
    .ok (dictInsert procs rule_type processor)

/-- Mirrors `RuleRegistry.get_processor`: `ValueError` on unknown tags. -/
def get_processor (procs : List (String × PyProcessor)) (rule_type : String) :
    Except String PyProcessor :=
  match procs.lookup rule_type with
  | none => .error ("Unknown rule type: " ++ rule_type)
  | some p => .ok p

/-! ## Sandbox (`sandbox.py`) -/

/-- The sandbox failure taxonomy: `ValueError`, `SandboxExecutionError` and
`SandboxTimeoutError` as raised by `sandbox.py`. -/
inductive SandboxFailure where
  | valueErr (msg : String)
  | execErr (msg : String)
  | timeoutErr (msg : String)
deriving DecidableEq

/-- Constant `SCRIPT_MAX_SIZE_BYTES` from `sandbox.py`. -/
def SCRIPT_MAX_SIZE_BYTES : Nat := 50000

/-- Constant `SCRIPT_MAX_LINES` from `sandbox.py`. -/
def SCRIPT_MAX_LINES : Nat := 1000

/-- Python `script.count("\n")` from `_validate_script`. -/
def countNewlines (s : String) : Nat := s.data.count '\n'

/-- Python's `not script or not script.strip()`: true iff the script is empty
or consists solely of whitespace. -/
def pyStrBlank (s : String) : Bool := s.data.all (·.isWhitespace)

/-- Message `f"Script exceeds maximum size of {SCRIPT_MAX_SIZE_BYTES // 1024}KB
(got {len(script)} bytes)"` (50000 // 1024 = 48). -/
def sizeErrMsg (n : Nat) : String :=
  "Script exceeds maximum size of 48KB (got " ++ (toString n ++ " bytes)")

/-- Message `f"Script exceeds maximum line count of {SCRIPT_MAX_LINES} (got
{line_count} lines)"`. -/
def lineErrMsg (n : Nat) : String :=
  "Script exceeds maximum line count of 1000 (got " ++ (toString n ++ " lines)")

/-- Message `f"Script has syntax errors at line {e.lineno}: {e.msg}"`. -/
def syntaxErrMsg (lineno : Nat) (m : String) : String :=
  "Script has syntax errors at line " ++ (toString lineno ++ (": " ++ m))

/-- Message `"Script cannot be empty"`. -/
def emptyErrMsg : String := "Script cannot be empty"

/-- Mirrors `_validate_script` (`sandbox.py`): reject blank scripts, scripts
over the size ceiling, scripts over the line ceiling, and unparseable
scripts, in that order.  The CPython parser is abstracted as the
`parseErr` oracle: `some (lineno, msg)` when `compile(script, ...)` raises
`SyntaxError`. -/
def _validate_script (script : String) (parseErr : Option (Nat × String)) :
    Except SandboxFailure Unit :=
  if pyStrBlank script then .error (.valueErr emptyErrMsg)
  else if script.length > SCRIPT_MAX_SIZE_BYTES then
    .error (.valueErr (sizeErrMsg script.length))
  else if countNewlines script + 1 > SCRIPT_MAX_LINES then
    .error (.valueErr (lineErrMsg (countNewlines script + 1)))
  else
    match parseErr with
    | some e => .error (.execErr (syntaxErrMsg e.1 e.2))
    | none => .ok ()

/-- Mirrors `_extract_and_validate_results` (`sandbox.py`): missing
`points_awarded` defaults to 0; negative points are reset to 0 and the
feedback is set to the fixed explanatory note. -/
def _extract_and_validate_results (points_value : Option ℚ) (feedback : String) :
    ℚ × String :=
  let points_awarded := points_value.getD 0
  if points_awarded < 0 then (0, "Invalid negative points, defaulting to 0")
  else (points_awarded, feedback)

/-- What happens once the compiled script body runs under the resource
limits, abstracted: it completes leaving the two output bindings, times out,
or raises. -/
inductive RunOutcome where
  | completes (points_awarded : Option ℚ) (feedback : String)
  | timesOut
  | failsSandbox (msg : String)
  | failsOther (msg : String)
deriving DecidableEq

/-- Mirrors `execute_programmable_rule` (`sandbox.py`): input validation,
script validation, restricted compilation (`compileErrors` oracle for
`compile_restricted_exec`), then the limited execution (`run` oracle), then
result extraction.  Resource-limit bookkeeping has no effect on the returned
value and is not modelled. -/
def execute_programmable_rule (script : String) (parseErr : Option (Nat × String))
    (compileErrors : Option String) (run : RunOutcome)
    (timeout_ms memory_mb : Int) : Except SandboxFailure (ℚ × String) :=
  if timeout_ms ≤ 0 then
    .error (.valueErr ("timeout_ms must be positive, got " ++ toString timeout_ms))
  else if memory_mb ≤ 0 then
    .error (.valueErr ("memory_mb must be positive, got " ++ toString memory_mb))
  else
    match _validate_script script parseErr with
    | .error e => .error e
    | .ok _ =>
      match compileErrors with
      | some msg => .error (.execErr ("Script compilation failed: " ++ msg))
      | none =>
        match run with
        | .completes p f => .ok (_extract_and_validate_results p f)
        | .timesOut => .error (.timeoutErr "Script execution timed out")
        | .failsSandbox m => .error (.execErr m)
        | .failsOther m => .error (.execErr ("Script execution failed: " ++ m))

/-! ## Grading orchestrator (`core.py`) -/

/-- The exception classes distinguished by `_grade_single_submission`'s
`except` clauses. -/
inductive ExcKind where
  | validationError
  | sandboxError
  | valueError
  | interrupt
  | otherError
deriving DecidableEq

/-- The outcome of `processor(rule, submission)` for one rubric rule:
`None`, a list, a single detail, or a raised exception (an unknown rule type
raises `ValueError` from `get_processor` before the processor runs, which
lands in the same `except ValueError` arm). -/
inductive ProcOutcome where
  | retNone
  | retList (l : List GradeDetail)
  | retOne (d : GradeDetail)
  | raised (k : ExcKind) (msg : String)
deriving DecidableEq

/-- One rubric rule as the orchestrator sees it: its `type` tag, the
`getattr`-accessed `question_id` and `max_points` (absent on some rule
kinds), and the abstracted processing outcome. -/
structure OrchRule where
  rtype : String
  qid : Option String
  maxPts : Option ℚ
  outcome : ProcOutcome
deriving DecidableEq

/-- Python slicing `s[:n]` (the `str(e)[:100]` truncation). -/
def pyTake (s : String) (n : Nat) : String := String.mk (s.data.take n)

/-- The `feedback` text of the synthetic error detail, per `except` arm of
`_grade_single_submission`. -/
def errorFeedback : ExcKind → String → String
  | .validationError, m => "✗ Validation error: " ++ pyTake m 100
  | .sandboxError, m => "✗ Script error: " ++ pyTake m 100
  | .valueError, m => "✗ Error: " ++ pyTake m 100
  | .otherError, m => "✗ Unexpected error: " ++ m
  | .interrupt, _ => ""

/-- The synthetic `GradeDetail` built in every non-interrupt `except` arm:
zero points, `is_correct=False`, `getattr` fallbacks for question id and max
points. -/
def errorDetail (r : OrchRule) (k : ExcKind) (m : String) : GradeDetail :=
  { question_id := r.qid.getD "unknown"
    student_answer := none
    correct_answer := none
    points_awarded := 0
    max_points := r.maxPts.getD 0
    is_correct := false
    rule_applied := some r.rtype
    feedback := some (errorFeedback k m) }

/-- One iteration of the rule loop in `_grade_single_submission`: the
details this rule contributes.  `KeyboardInterrupt`/`SystemExit` re-raise
(`Except.error`); every other exception becomes the zero-point detail. -/
def ruleDetails (r : OrchRule) : Except Unit (List GradeDetail) :=
  match r.outcome with
  | .retNone => .ok []
  | .retList l => .ok l
  | .retOne d => .ok [d]
  | .raised .interrupt _ => .error ()
  | .raised k m => .ok [errorDetail r k m]

/-- The contribution of a rule on the non-interrupt path. -/
def ruleDetailsOk (r : OrchRule) : List GradeDetail :=
  match r.outcome with
  | .retNone => []
  | .retList l => l
  | .retOne d => [d]
  | .raised k m => [errorDetail r k m]

/-- Accumulated `all_details` over the whole rubric. -/
def joinDetails : List OrchRule → List GradeDetail
  | [] => []
  | r :: rs => ruleDetailsOk r ++ joinDetails rs

/-- The rule loop of `_grade_single_submission`, stopping only when an
interrupt propagates. -/
def collectDetails : List OrchRule → Except Unit (List GradeDetail)
  | [] => .ok []
  | r :: rs =>
    match ruleDetails r with
    | .error e => .error e
    | .ok ds =>
      match collectDetails rs with
      | .error e => .error e
      | .ok rest => .ok (ds ++ rest)

/-- The totals computed at the end of `_grade_single_submission`: summed
points and max points, percentage guarded against a zero denominator. -/
def mkStudentResult (submission : Submission) (all_details : List GradeDetail) :
    StudentResult :=
  let total_points := (all_details.map (·.points_awarded)).sum
  let max_points := (all_details.map (·.max_points)).sum
  { student_id := submission.student_id
    total_points := total_points
    max_points := max_points
    percentage := if max_points > 0 then total_points / max_points * 100 else 0
    grade_details := all_details
    metadata := submission.metadata }

/-- Mirrors `_grade_single_submission` (`core.py`). -/
def _grade_single_submission (rules : List OrchRule) (submission : Submission) :
    Except Unit StudentResult :=
  match collectDetails rules with
  | .error e => .error e
  | .ok all_details => .ok (mkStudentResult submission all_details)

/-- Mirrors the submission loop of `grade` (`core.py`).  Each submission is
paired with the per-rule processing outcomes of the rubric against it.  (The
progress callback only logs; a failing callback is swallowed and does not
affect the results, so it is not modelled.) -/
def gradeSubmissions : List (Submission × List OrchRule) → Except Unit (List StudentResult)
  | [] => .ok []
  | (sub, rules) :: rest =>
    match _grade_single_submission rules sub with
    | .error e => .error e
    | .ok r =>
      match gradeSubmissions rest with
      | .error e => .error e
      | .ok rs => .ok (r :: rs)

/-! ## Programmable rules (`rules/programmable`) -/

/-- Mirrors `ProgrammableRule` (`rules/programmable/model.py`). -/
structure ProgrammableRule where
  question_id : String
  max_points : ℚ
  code : String
deriving DecidableEq

/-- The abstracted outcome of `execute_programmable_rule` as seen from
`process_programmable`: a `(points, feedback)` pair, or a
`SandboxExecutionError`/`SandboxTimeoutError`. -/
inductive SandboxCall where
  | result (points : ℚ) (feedback : String)
  | failure (msg : String)
deriving DecidableEq

/-- Mirrors `_clamp_points` (`rules/programmable/processor.py`):
`max(0.0, min(points, max_points))`. -/
def _clamp_points (points max_points : ℚ) : ℚ := max 0 (min points max_points)

/-- Mirrors `process_programmable` (`rules/programmable/processor.py`):
validate the code is non-blank, run the sandbox, clamp the points into
`[0, max_points]`, mark correct iff the clamped points reach `max_points`;
sandbox failures award 0 with the error in the feedback. -/
def process_programmable (rule : ProgrammableRule) (submission : Submission)
    (call : SandboxCall) : Except String (Option GradeDetail) :=
  if pyStrBlank rule.code then .error "Programmable rule code cannot be empty"
  else
    match call with
    | .result p fb =>
      let points_awarded := _clamp_points p rule.max_points
      .ok (some { question_id := rule.question_id
                  student_answer := some (submission.getAnswer rule.question_id)
                  correct_answer := none
                  points_awarded := points_awarded
                  max_points := rule.max_points
                  is_correct := decide (points_awarded ≥ rule.max_points)
                  rule_applied := none
                  feedback := if fb = "" then none else some fb })
    | .failure msg =>
      .ok (some { question_id := rule.question_id
                  student_answer := some (submission.getAnswer rule.question_id)
                  correct_answer := none
                  points_awarded := 0
                  max_points := rule.max_points
                  is_correct := false
                  rule_applied := none
                  feedback := some ("Grading script error: " ++ msg) })

/-- C1 counterexample part: the spec claims the composite accepts modes drawn
from max/min/sum/average/multiply; the code's `Literal` accepts exactly
AND/OR/WEIGHTED, so mode "sum" (and the others) is rejected. -/
theorem composite_mode_sum_rejected :
    compositeModeAccepts "sum" = false ∧
    compositeModeAccepts "max" = false ∧
    compositeModeAccepts "min" = false ∧
    compositeModeAccepts "average" = false ∧
    compositeModeAccepts "multiply" = false ∧
    compositeModeAccepts "AND" = true ∧
    compositeModeAccepts "OR" = true ∧
    compositeModeAccepts "WEIGHTED" = true := by
  decide

/-- C1 amended: the composite accepts modes {AND, OR, WEIGHTED} only.  In AND
mode, for any submission where every sub-rule yields a result, the returned
GradeDetail has `max_points` equal to the sum of the sub-results'
`max_points`, and `points_awarded` equal to the sum of the sub-results'
`points_awarded` when every sub-result is correct (0 otherwise). -/
theorem composite_and_sums (rule : CompositeRule) (submission : Submission)
    (subEvals : List EvalResult)
    (hmode : rule.mode = .AND)
    (hsome : ∀ e ∈ subEvals, (firstResult e).isSome)
    (hne : subEvals ≠ []) :
    ∃ d : GradeDetail,
      process_composite rule submission subEvals = .ok [d] ∧
      d.max_points = ((subEvals.filterMap firstResult).map (·.max_points)).sum ∧
      d.points_awarded =
        (if (subEvals.filterMap firstResult).all (·.is_correct) then
          ((subEvals.filterMap firstResult).map (·.points_awarded)).sum
        else 0) ∧
      d.is_correct = (subEvals.filterMap firstResult).all (·.is_correct) := by
  have hres : subEvals.filterMap firstResult ≠ [] := by
    cases subEvals with
    | nil => exact absurd rfl hne
    | cons e es =>
      have h1 := hsome e (List.mem_cons_self e es)
      cases hfe : firstResult e with
      | none => rw [hfe] at h1; simp at h1
      | some d =>
        simp [List.filterMap_cons, hfe]
  simp only [process_composite, hmode, if_neg hres]
  exact ⟨_, rfl, rfl, rfl, rfl⟩

/-- Witness for `composite_and_sums` at a concrete two-sub-rule composite. -/
theorem composite_and_sums_witness :
    ∃ d : GradeDetail,
      process_composite
        ⟨"Q1", .AND, none, none, (95 : ℚ)/100⟩
        ⟨"alice", [("Q1", "Paris")], []⟩
        [.one ⟨"Q1", some "Paris", some "Paris", 5, 5, true, some "EXACT_MATCH", none⟩,
         .one ⟨"Q1", some "Paris", none, 3, 3, true, some "LENGTH", none⟩] = .ok [d] ∧
      d.max_points =
        (([.one ⟨"Q1", some "Paris", some "Paris", 5, 5, true, some "EXACT_MATCH", none⟩,
           .one ⟨"Q1", some "Paris", none, 3, 3, true, some "LENGTH", none⟩] :
            List EvalResult).filterMap firstResult |>.map (·.max_points)).sum ∧
      d.points_awarded =
        (if (([.one ⟨"Q1", some "Paris", some "Paris", 5, 5, true, some "EXACT_MATCH", none⟩,
           .one ⟨"Q1", some "Paris", none, 3, 3, true, some "LENGTH", none⟩] :
            List EvalResult).filterMap firstResult).all (·.is_correct) then
          (([.one ⟨"Q1", some "Paris", some "Paris", 5, 5, true, some "EXACT_MATCH", none⟩,
           .one ⟨"Q1", some "Paris", none, 3, 3, true, some "LENGTH", none⟩] :
            List EvalResult).filterMap firstResult |>.map (·.points_awarded)).sum
        else 0) ∧
      d.is_correct =
        (([.one ⟨"Q1", some "Paris", some "Paris", 5, 5, true, some "EXACT_MATCH", none⟩,
           .one ⟨"Q1", some "Paris", none, 3, 3, true, some "LENGTH", none⟩] :
            List EvalResult).filterMap firstResult).all (·.is_correct) :=
  composite_and_sums _ _ _ rfl (by decide) (by decide)

/-- C3: whenever the aggregate of the guard booleans is false (AND: some
guard false or no guard at all; OR: every guard false), the conditional rule
produces no GradeDetail at all. -/
theorem conditional_guard_false_yields_nothing (rule : ConditionalRule)
    (h : (rule.if_aggregation = .AND ∧
            (rule.if_results = [] ∨ ∃ g ∈ rule.if_results, guardBool g = false)) ∨
         (rule.if_aggregation = .OR ∧ ∀ g ∈ rule.if_results, guardBool g = false)) :
    process_conditional rule = none := by
  unfold process_conditional
  rcases h with ⟨hagg, hcase⟩ | ⟨hagg, hall⟩
  · rw [hagg]
    rcases hcase with hnil | ⟨g, hg, hfalse⟩
    · simp [hnil]
    · have : (rule.if_results.map guardBool).all id = false := by
        rw [List.all_eq_false]
        exact ⟨guardBool g, List.mem_map_of_mem guardBool hg, by simp [hfalse]⟩
      simp [this]
  · rw [hagg]
    have : (rule.if_results.map guardBool).any id = false := by
      rw [List.any_eq_false]
      intro b hb
      rcases List.mem_map.mp hb with ⟨g, hg, rfl⟩
      simp [hall g hg]
    simp [this]

/-- Witness for `conditional_guard_false_yields_nothing`: an AND-aggregated
conditional with one failing guard contributes nothing. -/
theorem conditional_guard_false_yields_nothing_witness :
    process_conditional
      ⟨[.one ⟨"Q1", some "London", some "Paris", 0, 5, false, some "EXACT_MATCH", none⟩],
       .AND,
       [.one ⟨"Q2", some "yes", none, 5, 5, true, some "EXACT_MATCH", none⟩]⟩ = none :=
  conditional_guard_false_yields_nothing _
    (Or.inl ⟨rfl, Or.inr ⟨_, List.mem_cons_self _ _, rfl⟩⟩)

theorem pickBest_mem (rs : List AssumptionResult) :
    ∀ r, pickBest r rs ∈ r :: rs := by
  induction rs with
  | nil => intro r; simp [pickBest]
  | cons x xs ih =>
    intro r
    have hstep : pickBest r (x :: xs) =
        pickBest (if x.total > r.total then x else r) xs := rfl
    rw [hstep]
    by_cases h : x.total > r.total
    · rw [if_pos h]
      rcases List.mem_cons.mp (ih x) with heq | hmem
      · rw [heq]; exact List.mem_cons_of_mem _ (List.mem_cons_self _ _)
      · exact List.mem_cons_of_mem _ (List.mem_cons_of_mem _ hmem)
    · rw [if_neg h]
      rcases List.mem_cons.mp (ih r) with heq | hmem
      · rw [heq]; exact List.mem_cons_self _ _
      · exact List.mem_cons_of_mem _ (List.mem_cons_of_mem _ hmem)

theorem pickBest_total (rs : List AssumptionResult) :
    ∀ r, ∀ x ∈ r :: rs, x.total ≤ (pickBest r rs).total := by
  induction rs with
  | nil =>
    intro r x hx
    rcases List.mem_cons.mp hx with rfl | hx'
    · exact le_refl _
    · exact absurd hx' (List.not_mem_nil x)
  | cons y ys ih =>
    intro r x hx
    have hstep : pickBest r (y :: ys) =
        pickBest (if y.total > r.total then y else r) ys := rfl
    rw [hstep]
    have hhead : (if y.total > r.total then y else r) ∈
        (if y.total > r.total then y else r) :: ys := List.mem_cons_self _ _
    rcases List.mem_cons.mp hx with rfl | hx'
    · have h1 : x.total ≤ (if y.total > x.total then y else x).total := by
        by_cases h : y.total > x.total
        · rw [if_pos h]; exact le_of_lt h
        · rw [if_neg h]
      exact le_trans h1 (ih _ _ hhead)
    · rcases List.mem_cons.mp hx' with rfl | hx'' 
      · have h1 : x.total ≤ (if x.total > r.total then x else r).total := by
          by_cases h : x.total > r.total
          · rw [if_pos h]
          · rw [if_neg h]; exact le_of_not_lt h
        exact le_trans h1 (ih _ _ hhead)
      · exact ih _ _ (List.mem_cons_of_mem _ hx'')

theorem pickWorst_mem (rs : List AssumptionResult) :
    ∀ r, pickWorst r rs ∈ r :: rs := by
  induction rs with
  | nil => intro r; simp [pickWorst]
  | cons x xs ih =>
    intro r
    have hstep : pickWorst r (x :: xs) =
        pickWorst (if x.total < r.total then x else r) xs := rfl
    rw [hstep]
    by_cases h : x.total < r.total
    · rw [if_pos h]
      rcases List.mem_cons.mp (ih x) with heq | hmem
      · rw [heq]; exact List.mem_cons_of_mem _ (List.mem_cons_self _ _)
      · exact List.mem_cons_of_mem _ (List.mem_cons_of_mem _ hmem)
    · rw [if_neg h]
      rcases List.mem_cons.mp (ih r) with heq | hmem
      · rw [heq]; exact List.mem_cons_self _ _
      · exact List.mem_cons_of_mem _ (List.mem_cons_of_mem _ hmem)

theorem pickWorst_total (rs : List AssumptionResult) :
    ∀ r, ∀ x ∈ r :: rs, (pickWorst r rs).total ≤ x.total := by
  induction rs with
  | nil =>
    intro r x hx
    rcases List.mem_cons.mp hx with rfl | hx'
    · exact le_refl _
    · exact absurd hx' (List.not_mem_nil x)
  | cons y ys ih =>
    intro r x hx
    have hstep : pickWorst r (y :: ys) =
        pickWorst (if y.total < r.total then y else r) ys := rfl
    rw [hstep]
    have hhead : (if y.total < r.total then y else r) ∈
        (if y.total < r.total then y else r) :: ys := List.mem_cons_self _ _
    rcases List.mem_cons.mp hx with rfl | hx'
    · have h1 : (if y.total < x.total then y else x).total ≤ x.total := by
        by_cases h : y.total < x.total
        · rw [if_pos h]; exact le_of_lt h
        · rw [if_neg h]
      exact le_trans (ih _ _ hhead) h1
    · rcases List.mem_cons.mp hx' with rfl | hx''
      · have h1 : (if x.total < r.total then x else r).total ≤ x.total := by
          by_cases h : x.total < r.total
          · rw [if_pos h]
          · rw [if_neg h]; exact le_of_not_lt h
        exact le_trans (ih _ _ hhead) h1
      · exact ih _ _ (List.mem_cons_of_mem _ hx'')

/-- A successful evaluation of a nonempty assumption list is nonempty. -/
theorem evalAssumptions_ne_nil (submission : Submission) (a : Assumption)
    (as_ : List Assumption) (results : List AssumptionResult)
    (heval : evalAssumptions submission (a :: as_) = .ok results) :
    results ≠ [] := by
  unfold evalAssumptions at heval
  cases h1 : evalAssumption submission a with
  | error e => rw [h1] at heval; exact absurd heval (by simp)
  | ok r =>
    rw [h1] at heval
    cases h2 : evalAssumptions submission as_ with
    | error e => rw [h2] at heval; exact absurd heval (by simp)
    | ok rs =>
      rw [h2] at heval
      have : r :: rs = results := by
        simpa using heval
      rw [← this]
      exact List.cons_ne_nil _ _

/-- C4: with mode = best the assumption-set evaluator returns exactly the
detail list of an assumption result of maximal summed total; with mode =
worst, of minimal total. -/
theorem assumption_set_best_worst (rule : AssumptionSetRule)
    (submission : Submission) (results : List AssumptionResult)
    (heval : evalAssumptions submission rule.assumptions = .ok results)
    (hne : rule.assumptions ≠ []) :
    (rule.mode = .best →
      ∃ c ∈ results, process_assumption_set rule submission = .ok c.details ∧
        ∀ x ∈ results, x.total ≤ c.total) ∧
    (rule.mode = .worst →
      ∃ c ∈ results, process_assumption_set rule submission = .ok c.details ∧
        ∀ x ∈ results, c.total ≤ x.total) := by
  have hres_ne : results ≠ [] := by
    cases hasms : rule.assumptions with
    | nil => exact absurd hasms hne
    | cons a as_ =>
      rw [hasms] at heval
      exact evalAssumptions_ne_nil submission a as_ results heval
  cases results with
  | nil => exact absurd rfl hres_ne
  | cons r rs =>
    have hproc : ∀ m, rule.mode = m →
        process_assumption_set rule submission =
          (match m with
            | .best => .ok (pickBest r rs).details
            | .worst => .ok (pickWorst r rs).details
            | .average => .ok ((groupByQid (allDetails (r :: rs))).map
                (fun g => averagedDetail "ASSUMPTION_SET" g.1 g.2))) := by
      intro m hm
      unfold process_assumption_set
      rw [heval, hm]
    constructor
    · intro hbest
      exact ⟨pickBest r rs, pickBest_mem rs r, hproc .best hbest,
        pickBest_total rs r⟩
    · intro hworst
      exact ⟨pickWorst r rs, pickWorst_mem rs r, hproc .worst hworst,
        pickWorst_total rs r⟩

/-- Witness for `assumption_set_best_worst`: two one-rule assumptions with
totals 4 and 1; best mode returns the first one's details. -/
theorem assumption_set_best_worst_witness :
    ∃ c ∈ ([⟨"X", 4, [⟨"Q1", some "a", none, 4, 4, true, none,
              some "Graded using assumption: X"⟩]⟩,
            ⟨"Y", 1, [⟨"Q1", some "a", none, 1, 4, false, none,
              some "Graded using assumption: Y"⟩]⟩] : List AssumptionResult),
      process_assumption_set
        ⟨[⟨"X", [⟨"Q1", 4, .one ⟨"Q1", some "a", none, 4, 4, true, none, none⟩⟩]⟩,
          ⟨"Y", [⟨"Q1", 4, .one ⟨"Q1", some "a", none, 1, 4, false, none, none⟩⟩]⟩],
         .best⟩
        ⟨"alice", [("Q1", "a")], []⟩ = .ok c.details ∧
      ∀ x ∈ ([⟨"X", 4, [⟨"Q1", some "a", none, 4, 4, true, none,
              some "Graded using assumption: X"⟩]⟩,
            ⟨"Y", 1, [⟨"Q1", some "a", none, 1, 4, false, none,
              some "Graded using assumption: Y"⟩]⟩] : List AssumptionResult),
        x.total ≤ c.total :=
  (assumption_set_best_worst
    ⟨[⟨"X", [⟨"Q1", 4, .one ⟨"Q1", some "a", none, 4, 4, true, none, none⟩⟩]⟩,
      ⟨"Y", [⟨"Q1", 4, .one ⟨"Q1", some "a", none, 1, 4, false, none, none⟩⟩]⟩],
     .best⟩
    ⟨"alice", [("Q1", "a")], []⟩
    [⟨"X", 4, [⟨"Q1", some "a", none, 4, 4, true, none,
        some "Graded using assumption: X"⟩]⟩,
     ⟨"Y", 1, [⟨"Q1", some "a", none, 1, 4, false, none,
        some "Graded using assumption: Y"⟩]⟩]
    (by simp [evalAssumptions, evalAssumption, evalSubrules, to_detail,
      update_feedback])
    (List.cons_ne_nil _ _)).1 rfl

theorem insertGroup_keys (x : GradeDetail) :
    ∀ acc : List (String × List GradeDetail),
      (insertGroup acc x).map Prod.fst =
        if x.question_id ∈ acc.map Prod.fst then acc.map Prod.fst
        else acc.map Prod.fst ++ [x.question_id] := by
  intro acc
  induction acc with
  | nil => simp [insertGroup]
  | cons hd tl ih =>
    obtain ⟨q, l⟩ := hd
    by_cases hq : q = x.question_id
    · subst hq
      simp [insertGroup]
    · have hmem : x.question_id ∈ ((q, l) :: tl).map Prod.fst ↔
          x.question_id ∈ tl.map Prod.fst := by
        simp [Ne.symm hq]
      by_cases hx : x.question_id ∈ tl.map Prod.fst
      · rw [if_pos (hmem.mpr hx)]
        simp [insertGroup, hq, ih, hx]
      · rw [if_neg (fun h => hx (hmem.mp h))]
        simp [insertGroup, hq, ih, hx]

theorem insertGroup_filter (x : GradeDetail) :
    ∀ (acc : List (String × List GradeDetail)) (p : List GradeDetail),
      (∀ g ∈ acc, g.2 = p.filter (fun d => d.question_id == g.1)) →
      (acc.map Prod.fst).Nodup →
      (x.question_id ∉ acc.map Prod.fst →
        p.filter (fun d => d.question_id == x.question_id) = []) →
      ∀ g ∈ insertGroup acc x,
        g.2 = (p ++ [x]).filter (fun d => d.question_id == g.1) := by
  intro acc
  induction acc with
  | nil =>
    intro p h1 h2 h3 g hg
    obtain ⟨gq, gl⟩ := g
    have hp : p.filter (fun d => d.question_id == x.question_id) = [] :=
      h3 (by simp)
    simp only [insertGroup, List.mem_singleton, Prod.mk.injEq] at hg
    obtain ⟨rfl, rfl⟩ := hg
    simp [List.filter_append, hp]
  | cons hd tl ih =>
    obtain ⟨q, l⟩ := hd
    intro p h1 h2 h3 g hg
    obtain ⟨gq, gl⟩ := g
    by_cases hq : q = x.question_id
    · subst hq
      have hred : insertGroup ((x.question_id, l) :: tl) x =
          (x.question_id, l ++ [x]) :: tl := by
        simp [insertGroup]
      rw [hred] at hg
      rcases List.mem_cons.mp hg with heq | hg'
      · rw [Prod.mk.injEq] at heq
        obtain ⟨rfl, rfl⟩ := heq
        have hl : l = p.filter (fun d => d.question_id == x.question_id) := by
          simpa using h1 (x.question_id, l) (List.mem_cons_self _ _)
        rw [List.filter_append, ← hl]
        simp
      · have hkey : gq ∈ tl.map Prod.fst := by
          simpa using List.mem_map_of_mem Prod.fst hg'
        rw [List.map_cons, List.nodup_cons] at h2
        have hxg : x.question_id ≠ gq := fun hc => h2.1 (hc ▸ hkey)
        have hfx : List.filter (fun d => d.question_id == gq) [x] = [] := by
          simp [hxg]
        rw [List.filter_append, hfx, List.append_nil]
        simpa using h1 (gq, gl) (List.mem_cons_of_mem _ hg')
    · have hred : insertGroup ((q, l) :: tl) x = (q, l) :: insertGroup tl x := by
        simp [insertGroup, hq]
      rw [hred] at hg
      rcases List.mem_cons.mp hg with heq | hg'
      · rw [Prod.mk.injEq] at heq
        obtain ⟨rfl, rfl⟩ := heq
        have hxg : x.question_id ≠ gq := fun hc => hq hc.symm
        have hfx : List.filter (fun d => d.question_id == gq) [x] = [] := by
          simp [hxg]
        rw [List.filter_append, hfx, List.append_nil]
        simpa using h1 (gq, gl) (List.mem_cons_self _ _)
      · refine ih p ?_ ?_ ?_ (gq, gl) hg'
        · intro g' hg''
          exact h1 g' (List.mem_cons_of_mem _ hg'')
        · rw [List.map_cons, List.nodup_cons] at h2
          exact h2.2
        · intro hx
          refine h3 ?_
          simp only [List.map_cons, List.mem_cons]
          rintro (hc | hc)
          · exact hq hc.symm
          · exact hx hc

theorem insertGroup_nodup (x : GradeDetail) (acc : List (String × List GradeDetail))
    (h : (acc.map Prod.fst).Nodup) :
    ((insertGroup acc x).map Prod.fst).Nodup := by
  rw [insertGroup_keys]
  by_cases hx : x.question_id ∈ acc.map Prod.fst
  · rw [if_pos hx]; exact h
  · rw [if_neg hx]
    simp [List.nodup_append, h, hx]

theorem insertGroup_missing (x : GradeDetail) (acc : List (String × List GradeDetail))
    (p : List GradeDetail)
    (hmiss : ∀ q, q ∉ acc.map Prod.fst →
      p.filter (fun d => d.question_id == q) = []) :
    ∀ q, q ∉ (insertGroup acc x).map Prod.fst →
      (p ++ [x]).filter (fun d => d.question_id == q) = [] := by
  intro q hq
  rw [insertGroup_keys] at hq
  have hq_acc : q ∉ acc.map Prod.fst := by
    by_cases hx : x.question_id ∈ acc.map Prod.fst
    · rwa [if_pos hx] at hq
    · rw [if_neg hx] at hq
      intro hc
      exact hq (List.mem_append_left _ hc)
  have hq_x : x.question_id ≠ q := by
    by_cases hx : x.question_id ∈ acc.map Prod.fst
    · intro hc; exact hq_acc (hc ▸ hx)
    · rw [if_neg hx] at hq
      intro hc
      exact hq (List.mem_append_right _ (by simp [hc]))
  rw [List.filter_append, hmiss q hq_acc]
  simp [hq_x]

theorem groupFold_spec (rest : List GradeDetail) :
    ∀ (p : List GradeDetail) (acc : List (String × List GradeDetail)),
      (∀ g ∈ acc, g.2 = p.filter (fun d => d.question_id == g.1)) →
      (acc.map Prod.fst).Nodup →
      (∀ q, q ∉ acc.map Prod.fst →
        p.filter (fun d => d.question_id == q) = []) →
      (∀ g ∈ rest.foldl insertGroup acc,
        g.2 = (p ++ rest).filter (fun d => d.question_id == g.1)) ∧
      ((rest.foldl insertGroup acc).map Prod.fst).Nodup := by
  induction rest with
  | nil =>
    intro p acc h1 h2 h3
    constructor
    · intro g hg
      simpa using h1 g (by simpa using hg)
    · simpa using h2
  | cons x xs ih =>
    intro p acc h1 h2 h3
    have step1 : ∀ g ∈ insertGroup acc x,
        g.2 = (p ++ [x]).filter (fun d => d.question_id == g.1) :=
      insertGroup_filter x acc p h1 h2 (fun hmem => h3 _ hmem)
    have step2 := insertGroup_nodup x acc h2
    have step3 := insertGroup_missing x acc p h3
    have := ih (p ++ [x]) (insertGroup acc x) step1 step2 step3
    simpa [List.append_assoc] using this

/-- The `per_q` grouping of average mode is a genuine grouping: every group
holds exactly the details of its question id, and no question id appears in
two groups. -/
theorem groupByQid_spec (ds : List GradeDetail) :
    (∀ g ∈ groupByQid ds, g.2 = ds.filter (fun d => d.question_id == g.1)) ∧
    ((groupByQid ds).map Prod.fst).Nodup := by
  have := groupFold_spec ds [] []
    (by intro g hg; exact absurd hg (List.not_mem_nil g))
    (by simp)
    (by intro q _; simp)
  simpa [groupByQid] using this

/-- C5: in average mode, the assumption-set evaluator groups all
assumptions' details by question id (a genuine partition: each group holds
exactly that question's details and no question id repeats), and returns for
each question one GradeDetail whose points are the arithmetic mean, whose
max_points is the maximum (not the mean) of the group's max_points, and whose
correctness is `mean ≥ max − 1e-9`. -/
theorem assumption_set_average (rule : AssumptionSetRule)
    (submission : Submission) (results : List AssumptionResult)
    (heval : evalAssumptions submission rule.assumptions = .ok results)
    (hne : rule.assumptions ≠ [])
    (hmode : rule.mode = .average) :
    process_assumption_set rule submission =
      .ok ((groupByQid (allDetails results)).map
        (fun g => averagedDetail "ASSUMPTION_SET" g.1 g.2)) ∧
    ((groupByQid (allDetails results)).map Prod.fst).Nodup ∧
    ∀ g ∈ groupByQid (allDetails results),
      g.2 = (allDetails results).filter (fun d => d.question_id == g.1) ∧
      (averagedDetail "ASSUMPTION_SET" g.1 g.2).question_id = g.1 ∧
      (averagedDetail "ASSUMPTION_SET" g.1 g.2).points_awarded =
        (g.2.map (·.points_awarded)).sum / (g.2.length : ℚ) ∧
      (averagedDetail "ASSUMPTION_SET" g.1 g.2).max_points =
        qlistMax (g.2.map (·.max_points)) ∧
      (averagedDetail "ASSUMPTION_SET" g.1 g.2).is_correct =
        decide ((g.2.map (·.points_awarded)).sum / (g.2.length : ℚ) ≥
          qlistMax (g.2.map (·.max_points)) - epsAvg) := by
  have hres_ne : results ≠ [] := by
    cases hasms : rule.assumptions with
    | nil => exact absurd hasms hne
    | cons a as_ =>
      rw [hasms] at heval
      exact evalAssumptions_ne_nil submission a as_ results heval
  refine ⟨?_, (groupByQid_spec _).2, ?_⟩
  · cases results with
    | nil => exact absurd rfl hres_ne
    | cons r rs =>
      unfold process_assumption_set
      rw [heval, hmode]
  · intro g hg
    exact ⟨(groupByQid_spec _).1 g hg, rfl, rfl, rfl, rfl⟩

/-- Witness for `assumption_set_average`: two assumptions answer Q1 with 4/4
and 0/4; the averaged detail carries the mean 2 against max 4. -/
theorem assumption_set_average_witness :
    process_assumption_set
      ⟨[⟨"X", [⟨"Q1", 4, .one ⟨"Q1", some "a", none, 4, 4, true, none, none⟩⟩]⟩,
        ⟨"Y", [⟨"Q1", 4, .one ⟨"Q1", some "a", none, 0, 4, false, none, none⟩⟩]⟩],
       .average⟩
      ⟨"alice", [("Q1", "a")], []⟩ =
      .ok ((groupByQid (allDetails
        [⟨"X", 4, [⟨"Q1", some "a", none, 4, 4, true, none,
            some "Graded using assumption: X"⟩]⟩,
         ⟨"Y", 0, [⟨"Q1", some "a", none, 0, 4, false, none,
            some "Graded using assumption: Y"⟩]⟩])).map
        (fun g => averagedDetail "ASSUMPTION_SET" g.1 g.2)) ∧
    ((groupByQid (allDetails
        [⟨"X", 4, [⟨"Q1", some "a", none, 4, 4, true, none,
            some "Graded using assumption: X"⟩]⟩,
         ⟨"Y", 0, [⟨"Q1", some "a", none, 0, 4, false, none,
            some "Graded using assumption: Y"⟩]⟩])).map Prod.fst).Nodup ∧
    ∀ g ∈ groupByQid (allDetails
        [⟨"X", 4, [⟨"Q1", some "a", none, 4, 4, true, none,
            some "Graded using assumption: X"⟩]⟩,
         ⟨"Y", 0, [⟨"Q1", some "a", none, 0, 4, false, none,
            some "Graded using assumption: Y"⟩]⟩]),
      g.2 = (allDetails
        [⟨"X", 4, [⟨"Q1", some "a", none, 4, 4, true, none,
            some "Graded using assumption: X"⟩]⟩,
         ⟨"Y", 0, [⟨"Q1", some "a", none, 0, 4, false, none,
            some "Graded using assumption: Y"⟩]⟩]).filter
          (fun d => d.question_id == g.1) ∧
      (averagedDetail "ASSUMPTION_SET" g.1 g.2).question_id = g.1 ∧
      (averagedDetail "ASSUMPTION_SET" g.1 g.2).points_awarded =
        (g.2.map (·.points_awarded)).sum / (g.2.length : ℚ) ∧
      (averagedDetail "ASSUMPTION_SET" g.1 g.2).max_points =
        qlistMax (g.2.map (·.max_points)) ∧
      (averagedDetail "ASSUMPTION_SET" g.1 g.2).is_correct =
        decide ((g.2.map (·.points_awarded)).sum / (g.2.length : ℚ) ≥
          qlistMax (g.2.map (·.max_points)) - epsAvg) :=
  assumption_set_average
    ⟨[⟨"X", [⟨"Q1", 4, .one ⟨"Q1", some "a", none, 4, 4, true, none, none⟩⟩]⟩,
      ⟨"Y", [⟨"Q1", 4, .one ⟨"Q1", some "a", none, 0, 4, false, none, none⟩⟩]⟩],
     .average⟩
    ⟨"alice", [("Q1", "a")], []⟩
    [⟨"X", 4, [⟨"Q1", some "a", none, 4, 4, true, none,
        some "Graded using assumption: X"⟩]⟩,
     ⟨"Y", 0, [⟨"Q1", some "a", none, 0, 4, false, none,
        some "Graded using assumption: Y"⟩]⟩]
    (by simp [evalAssumptions, evalAssumption, evalSubrules, to_detail,
      update_feedback])
    (List.cons_ne_nil _ _) rfl

theorem dictInsert_lookup (k : String) (v : PyProcessor) :
    ∀ d : List (String × PyProcessor), (dictInsert d k v).lookup k = some v := by
  intro d
  induction d with
  | nil => simp [dictInsert, List.lookup]
  | cons hd tl ih =>
    obtain ⟨k', v'⟩ := hd
    by_cases h : k' = k
    · subst h
      simp [dictInsert, List.lookup]
    · have hbeq : (k == k') = false := by
        simp [Ne.symm h]
      simp [dictInsert, h, List.lookup, hbeq, ih]

/-- C6 counterexample: registering an already-registered tag does not raise;
it succeeds and silently replaces the previous processor. -/
theorem register_duplicate_overwrites :
    register [("exact_match", ⟨2, 1⟩)] "exact_match" ⟨2, 2⟩ =
      .ok [("exact_match", ⟨2, 2⟩)] ∧
    get_processor [("exact_match", ⟨2, 2⟩)] "exact_match" = .ok ⟨2, 2⟩ := by
  exact ⟨rfl, rfl⟩

/-- C6 amended: `register` fails exactly when the evaluator's signature does
not take 2 parameters; a second registration of an existing tag succeeds and
replaces the stored processor. -/
theorem register_amended (procs : List (String × PyProcessor))
    (rule_type : String) (processor : PyProcessor) :
    (processor.arity ≠ 2 →
      register procs rule_type processor =
        .error ("Processor for '" ++ rule_type ++
          "' must accept exactly 2 parameters (rule, submission), got " ++
          toString processor.arity)) ∧
    (processor.arity = 2 →
      register procs rule_type processor = .ok (dictInsert procs rule_type processor) ∧
      (dictInsert procs rule_type processor).lookup rule_type = some processor) := by
  constructor
  · intro h
    simp [register, h]
  · intro h
    refine ⟨by simp [register, h], dictInsert_lookup _ _ _⟩

/-- Witness for `register_amended`: a 3-parameter processor is rejected; a
2-parameter processor re-registering an existing tag replaces it. -/
theorem register_amended_witness :
    register [("exact_match", ⟨2, 1⟩)] "bad_rule" ⟨3, 7⟩ =
      .error ("Processor for '" ++ "bad_rule" ++
        "' must accept exactly 2 parameters (rule, submission), got " ++
        toString (PyProcessor.mk 3 7).arity) ∧
    (register [("exact_match", ⟨2, 1⟩)] "exact_match" ⟨2, 2⟩ =
      .ok (dictInsert [("exact_match", ⟨2, 1⟩)] "exact_match" ⟨2, 2⟩) ∧
    (dictInsert [("exact_match", ⟨2, 1⟩)] "exact_match" ⟨2, 2⟩).lookup "exact_match" =
      some ⟨2, 2⟩) :=
  ⟨(register_amended [("exact_match", ⟨2, 1⟩)] "bad_rule" ⟨3, 7⟩).1 (by decide),
   (register_amended [("exact_match", ⟨2, 1⟩)] "exact_match" ⟨2, 2⟩).2 rfl⟩

/-- C7 counterexample: a completed run that left `points_awarded = -5` and
`feedback = "Great start"` yields points 0, but the returned feedback is the
fixed note alone — the script's feedback is discarded, not appended to. -/
theorem sandbox_negative_feedback_not_appended :
    execute_programmable_rule "points_awarded = -5.0" none none
        (.completes (some (-5)) "Great start") 5000 50 =
      .ok (0, "Invalid negative points, defaulting to 0") ∧
    ("Great start".data.isPrefixOf
      "Invalid negative points, defaulting to 0".data) = false := by
  constructor
  · show Except.ok (_extract_and_validate_results (some (-5)) "Great start") = _
    rw [_extract_and_validate_results]
    norm_num
  · decide

/-- C7 amended: when a completed script leaves negative points, the sandbox
returns `points_awarded = 0` with the feedback replaced by the fixed
explanatory note about the correction. -/
theorem sandbox_negative_clamped (script : String) (p : ℚ) (f : String)
    (hval : _validate_script script none = .ok ())
    (hneg : p < 0) :
    execute_programmable_rule script none none (.completes (some p) f) 5000 50 =
      .ok (0, "Invalid negative points, defaulting to 0") := by
  unfold execute_programmable_rule
  rw [hval]
  simp [_extract_and_validate_results, hneg]

/-- Witness for `sandbox_negative_clamped` at `p = -5`. -/
theorem sandbox_negative_clamped_witness :
    execute_programmable_rule "points_awarded = -5.0" none none
        (.completes (some (-5)) "Great start") 5000 50 =
      .ok (0, "Invalid negative points, defaulting to 0") :=
  sandbox_negative_clamped "points_awarded = -5.0" (-5) "Great start"
    rfl (by norm_num)

theorem str_ne_of_data_get (a b : String) (i : Nat)
    (h : a.data[i]? ≠ b.data[i]?) : a ≠ b :=
  fun hc => h (by rw [hc])

theorem append_data_get (a s : String) (i : Nat) (hi : i < a.data.length) :
    (a ++ s).data[i]? = a.data[i]? := by
  rw [String.data_append]
  exact List.getElem?_append_left hi

theorem msg_empty_ne_size (n : Nat) : emptyErrMsg ≠ sizeErrMsg n := by
  apply str_ne_of_data_get _ _ 7
  simp only [sizeErrMsg]
  rw [append_data_get _ _ 7 (by decide)]
  decide

theorem msg_empty_ne_line (n : Nat) : emptyErrMsg ≠ lineErrMsg n := by
  apply str_ne_of_data_get _ _ 7
  simp only [lineErrMsg]
  rw [append_data_get _ _ 7 (by decide)]
  decide

theorem msg_empty_ne_syntax (ln : Nat) (m : String) :
    emptyErrMsg ≠ syntaxErrMsg ln m := by
  apply str_ne_of_data_get _ _ 7
  simp only [syntaxErrMsg]
  rw [append_data_get _ _ 7 (by decide)]
  decide

theorem msg_size_ne_line (n n' : Nat) : sizeErrMsg n ≠ lineErrMsg n' := by
  apply str_ne_of_data_get _ _ 23
  simp only [sizeErrMsg, lineErrMsg]
  rw [append_data_get _ _ 23 (by decide), append_data_get _ _ 23 (by decide)]
  decide

theorem msg_size_ne_syntax (n ln : Nat) (m : String) :
    sizeErrMsg n ≠ syntaxErrMsg ln m := by
  apply str_ne_of_data_get _ _ 7
  simp only [sizeErrMsg, syntaxErrMsg]
  rw [append_data_get _ _ 7 (by decide), append_data_get _ _ 7 (by decide)]
  decide

theorem msg_line_ne_syntax (n ln : Nat) (m : String) :
    lineErrMsg n ≠ syntaxErrMsg ln m := by
  apply str_ne_of_data_get _ _ 7
  simp only [lineErrMsg, syntaxErrMsg]
  rw [append_data_get _ _ 7 (by decide), append_data_get _ _ 7 (by decide)]
  decide

/-- C8: each of the four rejection causes (blank script, size over 50,000,
more than 1,000 lines, parse failure) makes `execute_programmable_rule`
raise before any part of the script runs (the outcome does not depend on the
run oracle), and the four error messages are pairwise distinct. -/
theorem sandbox_validation_four_rejections (script : String)
    (parseErr : Option (Nat × String)) (ce : Option String)
    (run run' : RunOutcome) :
    (pyStrBlank script = true →
      execute_programmable_rule script parseErr ce run 5000 50 =
        .error (.valueErr emptyErrMsg) ∧
      execute_programmable_rule script parseErr ce run 5000 50 =
        execute_programmable_rule script parseErr ce run' 5000 50) ∧
    (pyStrBlank script = false → script.length > SCRIPT_MAX_SIZE_BYTES →
      execute_programmable_rule script parseErr ce run 5000 50 =
        .error (.valueErr (sizeErrMsg script.length)) ∧
      execute_programmable_rule script parseErr ce run 5000 50 =
        execute_programmable_rule script parseErr ce run' 5000 50) ∧
    (pyStrBlank script = false → ¬(script.length > SCRIPT_MAX_SIZE_BYTES) →
      countNewlines script + 1 > SCRIPT_MAX_LINES →
      execute_programmable_rule script parseErr ce run 5000 50 =
        .error (.valueErr (lineErrMsg (countNewlines script + 1))) ∧
      execute_programmable_rule script parseErr ce run 5000 50 =
        execute_programmable_rule script parseErr ce run' 5000 50) ∧
    (∀ ln msg, pyStrBlank script = false → ¬(script.length > SCRIPT_MAX_SIZE_BYTES) →
      ¬(countNewlines script + 1 > SCRIPT_MAX_LINES) → parseErr = some (ln, msg) →
      execute_programmable_rule script parseErr ce run 5000 50 =
        .error (.execErr (syntaxErrMsg ln msg)) ∧
      execute_programmable_rule script parseErr ce run 5000 50 =
        execute_programmable_rule script parseErr ce run' 5000 50) ∧
    ((∀ n, emptyErrMsg ≠ sizeErrMsg n) ∧
     (∀ n, emptyErrMsg ≠ lineErrMsg n) ∧
     (∀ ln m, emptyErrMsg ≠ syntaxErrMsg ln m) ∧
     (∀ n n', sizeErrMsg n ≠ lineErrMsg n') ∧
     (∀ n ln m, sizeErrMsg n ≠ syntaxErrMsg ln m) ∧
     (∀ n ln m, lineErrMsg n ≠ syntaxErrMsg ln m)) := by
  have ht : ¬((5000 : Int) ≤ 0) := by norm_num
  have hm : ¬((50 : Int) ≤ 0) := by norm_num
  refine ⟨?_, ?_, ?_, ?_,
    msg_empty_ne_size, msg_empty_ne_line, msg_empty_ne_syntax,
    msg_size_ne_line, msg_size_ne_syntax, msg_line_ne_syntax⟩
  · intro hblank
    have key : ∀ r : RunOutcome,
        execute_programmable_rule script parseErr ce r 5000 50 =
          .error (.valueErr emptyErrMsg) := by
      intro r
      simp [execute_programmable_rule, _validate_script, hblank, ht, hm]
    exact ⟨key run, (key run).trans (key run').symm⟩
  · intro hblank hsize
    have key : ∀ r : RunOutcome,
        execute_programmable_rule script parseErr ce r 5000 50 =
          .error (.valueErr (sizeErrMsg script.length)) := by
      intro r
      simp [execute_programmable_rule, _validate_script, hblank, hsize, ht, hm]
    exact ⟨key run, (key run).trans (key run').symm⟩
  · intro hblank hsize hlines
    have key : ∀ r : RunOutcome,
        execute_programmable_rule script parseErr ce r 5000 50 =
          .error (.valueErr (lineErrMsg (countNewlines script + 1))) := by
      intro r
      simp [execute_programmable_rule, _validate_script, hblank, hsize, hlines,
        ht, hm]
    exact ⟨key run, (key run).trans (key run').symm⟩
  · intro ln msg hblank hsize hlines hpe
    have key : ∀ r : RunOutcome,
        execute_programmable_rule script parseErr ce r 5000 50 =
          .error (.execErr (syntaxErrMsg ln msg)) := by
      intro r
      simp [execute_programmable_rule, _validate_script, hblank, hsize, hlines,
        hpe, ht, hm]
    exact ⟨key run, (key run).trans (key run').symm⟩

/-- Witness for `sandbox_validation_four_rejections`: the empty script, a
50,001-character script, a 1,001-line script and an unparseable script are
each rejected with their respective message. -/
theorem sandbox_validation_four_rejections_witness :
    execute_programmable_rule "" none none .timesOut 5000 50 =
      .error (.valueErr emptyErrMsg) ∧
    execute_programmable_rule (String.mk (List.replicate 50001 'a')) none none
        .timesOut 5000 50 =
      .error (.valueErr
        (sizeErrMsg (String.mk (List.replicate 50001 'a')).length)) ∧
    execute_programmable_rule (String.mk ('a' :: List.replicate 1000 '\n'))
        none none .timesOut 5000 50 =
      .error (.valueErr (lineErrMsg
        (countNewlines (String.mk ('a' :: List.replicate 1000 '\n')) + 1))) ∧
    execute_programmable_rule "x = (" (some (1, "invalid syntax")) none
        .timesOut 5000 50 =
      .error (.execErr (syntaxErrMsg 1 "invalid syntax")) := by
  refine ⟨((sandbox_validation_four_rejections "" none none
      .timesOut .timesOut).1 (by decide)).1, ?_, ?_, ?_⟩
  · refine ((sandbox_validation_four_rejections
      (String.mk (List.replicate 50001 'a')) none none
      .timesOut .timesOut).2.1 ?_ ?_).1
    · show (List.replicate 50001 'a').all (·.isWhitespace) = false
      rw [List.replicate_succ, List.all_cons]
      decide
    · show (List.replicate 50001 'a').length > SCRIPT_MAX_SIZE_BYTES
      rw [List.length_replicate]
      norm_num [SCRIPT_MAX_SIZE_BYTES]
  · refine ((sandbox_validation_four_rejections
      (String.mk ('a' :: List.replicate 1000 '\n')) none none
      .timesOut .timesOut).2.2.1 ?_ ?_ ?_).1
    · show ('a' :: List.replicate 1000 '\n').all (·.isWhitespace) = false
      rw [List.all_cons]
      decide
    · show ¬(('a' :: List.replicate 1000 '\n').length > SCRIPT_MAX_SIZE_BYTES)
      rw [List.length_cons, List.length_replicate]
      norm_num [SCRIPT_MAX_SIZE_BYTES]
    · show ('a' :: List.replicate 1000 '\n').count '\n' + 1 > SCRIPT_MAX_LINES
      rw [List.count_cons, List.count_replicate_self]
      simp [SCRIPT_MAX_LINES]
  · exact ((sandbox_validation_four_rejections "x = (" (some (1, "invalid syntax"))
      none .timesOut .timesOut).2.2.2.1 1 "invalid syntax"
      (by decide) (by decide) (by decide) rfl).1

theorem ruleDetails_ok (r : OrchRule)
    (h : ∀ m, r.outcome ≠ .raised .interrupt m) :
    ruleDetails r = .ok (ruleDetailsOk r) := by
  cases ho : r.outcome with
  | retNone => simp [ruleDetails, ruleDetailsOk, ho]
  | retList l => simp [ruleDetails, ruleDetailsOk, ho]
  | retOne d => simp [ruleDetails, ruleDetailsOk, ho]
  | raised k m =>
    cases k with
    | interrupt => exact absurd ho (h m)
    | validationError => simp [ruleDetails, ruleDetailsOk, ho]
    | sandboxError => simp [ruleDetails, ruleDetailsOk, ho]
    | valueError => simp [ruleDetails, ruleDetailsOk, ho]
    | otherError => simp [ruleDetails, ruleDetailsOk, ho]

theorem collectDetails_ok (rules : List OrchRule)
    (h : ∀ r ∈ rules, ∀ m, r.outcome ≠ .raised .interrupt m) :
    collectDetails rules = .ok (joinDetails rules) := by
  induction rules with
  | nil => rfl
  | cons r rs ih =>
    have h1 := ruleDetails_ok r (h r (List.mem_cons_self _ _))
    have h2 := ih (fun r' hr' => h r' (List.mem_cons_of_mem _ hr'))
    simp [collectDetails, h1, h2, joinDetails]

/-- C2: when no rule processing raises an interrupt, grading completes for
every submission; every rule's contribution (the failing ones converted to a
single zero-point, incorrect detail whose feedback names the failure) is
accumulated in order, so no failure stops the remaining rules or the
remaining submissions. -/
theorem grading_never_aborts (subs : List (Submission × List OrchRule))
    (h : ∀ p ∈ subs, ∀ r ∈ p.2, ∀ m, r.outcome ≠ .raised .interrupt m) :
    (∃ results, gradeSubmissions subs = .ok results ∧ results.length = subs.length) ∧
    (∀ p ∈ subs, _grade_single_submission p.2 p.1 =
      .ok (mkStudentResult p.1 (joinDetails p.2))) ∧
    (∀ r : OrchRule, ∀ k m, k ≠ .interrupt → r.outcome = .raised k m →
      ruleDetailsOk r = [errorDetail r k m] ∧
      (errorDetail r k m).points_awarded = 0 ∧
      (errorDetail r k m).is_correct = false ∧
      (errorDetail r k m).feedback = some (errorFeedback k m)) := by
  refine ⟨?_, ?_, ?_⟩
  · induction subs with
    | nil => exact ⟨[], rfl, rfl⟩
    | cons p ps ih =>
      obtain ⟨sub, rules⟩ := p
      have h1 : collectDetails rules = .ok (joinDetails rules) :=
        collectDetails_ok rules (h (sub, rules) (List.mem_cons_self _ _))
      obtain ⟨results, hres, hlen⟩ :=
        ih (fun p' hp' => h p' (List.mem_cons_of_mem _ hp'))
      refine ⟨mkStudentResult sub (joinDetails rules) :: results, ?_, by simp [hlen]⟩
      simp [gradeSubmissions, _grade_single_submission, h1, hres]
  · intro p hp
    have h1 : collectDetails p.2 = .ok (joinDetails p.2) :=
      collectDetails_ok p.2 (h p hp)
    simp [_grade_single_submission, h1]
  · intro r k m hk ho
    refine ⟨?_, rfl, rfl, rfl⟩
    cases k with
    | interrupt => exact absurd rfl hk
    | validationError => simp [ruleDetailsOk, ho]
    | sandboxError => simp [ruleDetailsOk, ho]
    | valueError => simp [ruleDetailsOk, ho]
    | otherError => simp [ruleDetailsOk, ho]

/-- Witness for `grading_never_aborts`: two submissions, the first hitting an
unknown rule type (a `ValueError` from dispatch) and the second a normal
detail; both are graded. -/
theorem grading_never_aborts_witness :
    (∃ results,
      gradeSubmissions [(⟨"alice", [("Q1", "Paris")], []⟩,
               [⟨"BOGUS_RULE", some "Q1", some 5, .raised .valueError
                  "Unknown rule type: BOGUS_RULE"⟩]),
             (⟨"bob", [("Q1", "London")], []⟩,
               [⟨"EXACT_MATCH", some "Q1", some 5,
                  .retOne ⟨"Q1", some "London", some "Paris", 0, 5, false,
                    some "EXACT_MATCH", none⟩⟩])] = .ok results ∧
      results.length = 2) ∧
    (∀ p ∈ [(⟨"alice", [("Q1", "Paris")], []⟩,
               [⟨"BOGUS_RULE", some "Q1", some 5, .raised .valueError
                  "Unknown rule type: BOGUS_RULE"⟩]),
             (⟨"bob", [("Q1", "London")], []⟩,
               [⟨"EXACT_MATCH", some "Q1", some 5,
                  .retOne ⟨"Q1", some "London", some "Paris", 0, 5, false,
                    some "EXACT_MATCH", none⟩⟩])],
      _grade_single_submission
        (Prod.snd (α := Submission) p) p.1 =
        .ok (mkStudentResult p.1 (joinDetails p.2))) ∧
    (∀ r : OrchRule, ∀ k m, k ≠ .interrupt → r.outcome = .raised k m →
      ruleDetailsOk r = [errorDetail r k m] ∧
      (errorDetail r k m).points_awarded = 0 ∧
      (errorDetail r k m).is_correct = false ∧
      (errorDetail r k m).feedback = some (errorFeedback k m)) :=
  grading_never_aborts
    [(⟨"alice", [("Q1", "Paris")], []⟩,
       [⟨"BOGUS_RULE", some "Q1", some 5, .raised .valueError
          "Unknown rule type: BOGUS_RULE"⟩]),
     (⟨"bob", [("Q1", "London")], []⟩,
       [⟨"EXACT_MATCH", some "Q1", some 5,
          .retOne ⟨"Q1", some "London", some "Paris", 0, 5, false,
            some "EXACT_MATCH", none⟩⟩])]
    (by
      intro p hp r hr m
      fin_cases hp <;> fin_cases hr <;> simp)

/-- C9: every successfully built StudentResult has totals equal to the sums
over its details and a percentage that is `total/max*100` when `max > 0` and
exactly 0 when `max = 0` — the division is guarded, so the percentage is
always a defined rational. -/
theorem student_result_totals (rules : List OrchRule) (submission : Submission)
    (res : StudentResult)
    (h : _grade_single_submission rules submission = .ok res) :
    res.total_points = (res.grade_details.map (·.points_awarded)).sum ∧
    res.max_points = (res.grade_details.map (·.max_points)).sum ∧
    res.percentage =
      (if res.max_points > 0 then res.total_points / res.max_points * 100
       else 0) := by
  unfold _grade_single_submission at h
  cases hc : collectDetails rules with
  | error e =>
    rw [hc] at h
    exact absurd h (by simp)
  | ok all_details =>
    rw [hc] at h
    have hres : mkStudentResult submission all_details = res := by
      simpa using h
    subst hres
    exact ⟨rfl, rfl, rfl⟩

/-- Witness for `student_result_totals`: one detail worth 5 of 10 gives a
50% result. -/
theorem student_result_totals_witness :
    (mkStudentResult ⟨"alice", [("Q1", "Paris")], []⟩
        [⟨"Q1", some "Paris", some "Paris", 5, 10, false, some "KEYWORD", none⟩]
      ).total_points =
      (((mkStudentResult ⟨"alice", [("Q1", "Paris")], []⟩
        [⟨"Q1", some "Paris", some "Paris", 5, 10, false, some "KEYWORD", none⟩]
      ).grade_details.map (·.points_awarded)).sum) ∧
    (mkStudentResult ⟨"alice", [("Q1", "Paris")], []⟩
        [⟨"Q1", some "Paris", some "Paris", 5, 10, false, some "KEYWORD", none⟩]
      ).max_points =
      (((mkStudentResult ⟨"alice", [("Q1", "Paris")], []⟩
        [⟨"Q1", some "Paris", some "Paris", 5, 10, false, some "KEYWORD", none⟩]
      ).grade_details.map (·.max_points)).sum) ∧
    (mkStudentResult ⟨"alice", [("Q1", "Paris")], []⟩
        [⟨"Q1", some "Paris", some "Paris", 5, 10, false, some "KEYWORD", none⟩]
      ).percentage =
      (if (mkStudentResult ⟨"alice", [("Q1", "Paris")], []⟩
        [⟨"Q1", some "Paris", some "Paris", 5, 10, false, some "KEYWORD", none⟩]
      ).max_points > 0 then
        (mkStudentResult ⟨"alice", [("Q1", "Paris")], []⟩
          [⟨"Q1", some "Paris", some "Paris", 5, 10, false, some "KEYWORD", none⟩]
        ).total_points /
        (mkStudentResult ⟨"alice", [("Q1", "Paris")], []⟩
          [⟨"Q1", some "Paris", some "Paris", 5, 10, false, some "KEYWORD", none⟩]
        ).max_points * 100
       else 0) :=
  student_result_totals
    [⟨"KEYWORD", some "Q1", some 10,
       .retOne ⟨"Q1", some "Paris", some "Paris", 5, 10, false, some "KEYWORD", none⟩⟩]
    ⟨"alice", [("Q1", "Paris")], []⟩
    (mkStudentResult ⟨"alice", [("Q1", "Paris")], []⟩
      [⟨"Q1", some "Paris", some "Paris", 5, 10, false, some "KEYWORD", none⟩])
    rfl

/-- C10: when the sandbox returns a result, the programmable-rule detail's
points are clamped into `[0, max_points]` (points above `max_points` are
reduced to `max_points`), and the detail is correct exactly when the clamped
points reach `max_points`. -/
theorem programmable_clamp (rule : ProgrammableRule) (submission : Submission)
    (p : ℚ) (fb : String)
    (hmax : 0 ≤ rule.max_points)
    (hcode : pyStrBlank rule.code = false) :
    ∃ d, process_programmable rule submission (.result p fb) = .ok (some d) ∧
      d.points_awarded = max 0 (min p rule.max_points) ∧
      0 ≤ d.points_awarded ∧
      d.points_awarded ≤ rule.max_points ∧
      (p > rule.max_points → d.points_awarded = rule.max_points) ∧
      (d.is_correct = true ↔ d.points_awarded ≥ rule.max_points) := by
  simp only [process_programmable, hcode, Bool.false_eq_true, if_false]
  refine ⟨_, rfl, rfl, le_max_left _ _, ?_, ?_, ?_⟩
  · exact max_le hmax (min_le_right _ _)
  · intro hp
    show _clamp_points p rule.max_points = rule.max_points
    rw [_clamp_points, min_eq_right (le_of_lt hp), max_eq_right hmax]
  · show decide (_clamp_points p rule.max_points ≥ rule.max_points) = true ↔ _
    simp

/-- Witness for `programmable_clamp`: a script awarding 12 on a 10-point
rule is clamped to 10 and marked correct. -/
theorem programmable_clamp_witness :
    ∃ d, process_programmable ⟨"Q1", 10, "points_awarded = 12.0"⟩
        ⟨"alice", [("Q1", "x")], []⟩ (.result 12 "ok") = .ok (some d) ∧
      d.points_awarded = max 0 (min 12 (10 : ℚ)) ∧
      0 ≤ d.points_awarded ∧
      d.points_awarded ≤ (10 : ℚ) ∧
      ((12 : ℚ) > 10 → d.points_awarded = (10 : ℚ)) ∧
      (d.is_correct = true ↔ d.points_awarded ≥ (10 : ℚ)) :=
  programmable_clamp ⟨"Q1", 10, "points_awarded = 12.0"⟩
    ⟨"alice", [("Q1", "x")], []⟩ 12 "ok" (by norm_num) (by decide)
